import Mathlib

set_option maxRecDepth 8000

/-!
# Verification of the tftp_client TFTP packet codec and transfer engine

Shallow embedding of `src/parser.rs` (packet codec) and `src/lib.rs`
(download/upload state machines) of the `kiranshila/tftp_client` crate.

Conventions:
* Bytes are modelled as `Nat` values; where the Rust code reads machine
  integers from bytes, the embedding takes the value mod 256 / mod 2^16
  explicitly, so byte-valued inputs behave exactly as in the source.
* Rust `CString` fields become `List Nat` (the byte string without its
  NUL terminator); `CString::new` failure (embedded NUL) is an explicit
  membership check.
* Rust `Result<T, Error>` becomes `Except ParseError T`.
* Rust panics (`expect`, out-of-bounds indexing) become an explicit
  `panicked` outcome of the step functions.
-/

namespace Tftp

/-- The TFTP block size, `BLKSIZE` in `lib.rs`. -/
def BLKSIZE : Nat := 512

/-- Big-endian encoding of a `u16` value, `u16::to_be_bytes`. -/
def u16be (n : Nat) : List Nat := [n / 256 % 256, n % 256]

/-- Big-endian read of a `u16` from the first two bytes of a slice,
`u16::from_be_bytes`.  Byte values are taken mod 256 (they are `u8` in the
source). -/
def readU16 : List Nat → Nat
  | a :: b :: _ => (a % 256) * 256 + b % 256
  | _ => 0

/-- Interpretation of a `u16` value as Rust's `as i16` cast
(two's-complement truncation to 16 bits, read as signed). -/
def toI16 (n : Nat) : Int :=
  if n % 65536 < 32768 then ((n % 65536 : Nat) : Int)
  else ((n % 65536 : Nat) : Int) - 65536

/-- Whether a byte is a UTF-8 continuation byte (`0x80..=0xBF`). -/
def utf8Cont (b : Nat) : Bool := decide (128 ≤ b ∧ b ≤ 191)

/-- UTF-8 validity of a byte sequence, as checked by Rust's
`str::from_utf8` (used by `CStr::to_str` and `CString::into_string`):
1-to-4-byte sequences, no overlong forms, no surrogates, max U+10FFFF. -/
def utf8Valid : List Nat → Bool
  | [] => true
  | b :: rest =>
    if b ≤ 127 then utf8Valid rest
    else if 194 ≤ b ∧ b ≤ 223 then
      match rest with
      | c1 :: r => utf8Cont c1 && utf8Valid r
      | [] => false
    else if b = 224 then
      match rest with
      | c1 :: c2 :: r => decide (160 ≤ c1 ∧ c1 ≤ 191) && utf8Cont c2 && utf8Valid r
      | _ => false
    else if 225 ≤ b ∧ b ≤ 236 then
      match rest with
      | c1 :: c2 :: r => utf8Cont c1 && utf8Cont c2 && utf8Valid r
      | _ => false
    else if b = 237 then
      match rest with
      | c1 :: c2 :: r => decide (128 ≤ c1 ∧ c1 ≤ 159) && utf8Cont c2 && utf8Valid r
      | _ => false
    else if 238 ≤ b ∧ b ≤ 239 then
      match rest with
      | c1 :: c2 :: r => utf8Cont c1 && utf8Cont c2 && utf8Valid r
      | _ => false
    else if b = 240 then
      match rest with
      | c1 :: c2 :: c3 :: r =>
          decide (144 ≤ c1 ∧ c1 ≤ 191) && utf8Cont c2 && utf8Cont c3 && utf8Valid r
      | _ => false
    else if 241 ≤ b ∧ b ≤ 243 then
      match rest with
      | c1 :: c2 :: c3 :: r => utf8Cont c1 && utf8Cont c2 && utf8Cont c3 && utf8Valid r
      | _ => false
    else if b = 244 then
      match rest with
      | c1 :: c2 :: c3 :: r =>
          decide (128 ≤ c1 ∧ c1 ≤ 143) && utf8Cont c2 && utf8Cont c3 && utf8Valid r
      | _ => false
    else false

/-- ASCII lowercasing of one byte, matching `str::to_ascii_lowercase`
byte-wise (non-ASCII bytes of a valid UTF-8 string are left unchanged). -/
def asciiLower (b : Nat) : Nat := if 65 ≤ b ∧ b ≤ 90 then b + 32 else b

/-- Split a byte list at its first NUL: `some (before, after)` if a 0 byte
occurs, `none` otherwise.  Building block for `slice::splitn(3, |x| *x == 0)`. -/
def splitFirst : List Nat → Option (List Nat × List Nat)
  | [] => none
  | b :: rest =>
    if b = 0 then some ([], rest)
    else
      match splitFirst rest with
      | some (pre, post) => some (b :: pre, post)
      | none => none

/-- Parse errors of the codec, `parser::Error` in the source. -/
inductive ParseError
  | Incomplete (n : Nat)
  | BadOpcode (v : Nat)
  | BadString
  | BadErrorCode (v : Nat)
deriving DecidableEq, Repr

/-- TFTP error codes, `parser::ErrorCode`. -/
inductive ErrorCode
  | Unspec | NoFile | Access | Write | Op | BadId | Exist | BadUser | BadOpt
deriving DecidableEq, Repr

/-- Wire value of an error code (`ErrorCode as u16`). -/
def ErrorCode.toU16 : ErrorCode → Nat
  | .Unspec => 0
  | .NoFile => 1
  | .Access => 2
  | .Write => 3
  | .Op => 4
  | .BadId => 5
  | .Exist => 6
  | .BadUser => 7
  | .BadOpt => 8

/-- `ErrorCode::from_u16`: any value outside `0..=8` is `BadErrorCode`. -/
def ErrorCode.from_u16 (v : Nat) : Except ParseError ErrorCode :=
  if v = 0 then .ok .Unspec
  else if v = 1 then .ok .NoFile
  else if v = 2 then .ok .Access
  else if v = 3 then .ok .Write
  else if v = 4 then .ok .Op
  else if v = 5 then .ok .BadId
  else if v = 6 then .ok .Exist
  else if v = 7 then .ok .BadUser
  else if v = 8 then .ok .BadOpt
  else .error (.BadErrorCode v)

/-- Transfer modes, `parser::RequestMode`. -/
inductive RequestMode
  | Octet | NetAscii | Mail
deriving DecidableEq, Repr

/-- The bytes of a mode string as written by `RequestMode::into_cstr`
(without the NUL terminator): "octet", "netascii", "mail". -/
def RequestMode.modeBytes : RequestMode → List Nat
  | .Octet => [111, 99, 116, 101, 116]
  | .NetAscii => [110, 101, 116, 97, 115, 99, 105, 105]
  | .Mail => [109, 97, 105, 108]

/-- `RequestMode::from_cstr`: UTF-8 decode (else `BadString`), ASCII
lowercase, compare against the three mode names (else `BadString`). -/
def RequestMode.from_cstr (s : List Nat) : Except ParseError RequestMode :=
  if utf8Valid s = true then
    let l := s.map asciiLower
    if l = RequestMode.modeBytes .Octet then .ok .Octet
    else if l = RequestMode.modeBytes .NetAscii then .ok .NetAscii
    else if l = RequestMode.modeBytes .Mail then .ok .Mail
    else .error .BadString
  else .error .BadString

/-- TFTP packets, `parser::Packet`.  String fields carry the bytes
without the wire NUL terminator, exactly like the `CString` payloads. -/
inductive Packet
  | ReadRequest (filename : List Nat) (mode : RequestMode)
  | WriteRequest (filename : List Nat) (mode : RequestMode)
  | Data (block_n : Nat) (data : List Nat)
  | Acknowledgment (block_n : Nat)
  | Error (code : ErrorCode) (msg : List Nat)
deriving DecidableEq, Repr

/-- `Packet::to_bytes`: big-endian opcode, then the opcode-specific body;
strings are written with a single trailing NUL. -/
def Packet.to_bytes : Packet → List Nat
  | .ReadRequest f m => u16be 1 ++ f ++ [0] ++ m.modeBytes ++ [0]
  | .WriteRequest f m => u16be 2 ++ f ++ [0] ++ m.modeBytes ++ [0]
  | .Data b d => u16be 3 ++ u16be b ++ d
  | .Acknowledgment b => u16be 4 ++ u16be b
  | .Error c msg => u16be 5 ++ u16be c.toU16 ++ msg ++ [0]

/-- The RRQ/WRQ body parser shared by opcodes 1 and 2: length check
(`< 7` is `Incomplete`), `splitn(3, NUL)` into filename and mode pieces,
`CString::new` checks, and mode mapping. -/
def parseReq (body : List Nat) (isRead : Bool) : Except ParseError Packet :=
  if body.length < 7 then .error (.Incomplete body.length)
  else
    match splitFirst body with
    | none =>
        -- no NUL at all: the second `iter.next()` is `None` -> `Incomplete(0)`
        .error (.Incomplete 0)
    | some (filename, r) =>
        let modePiece :=
          match splitFirst r with
          | none => r
          | some (m, _) => m
        if 0 ∈ filename then .error .BadString
        else if 0 ∈ modePiece then .error .BadString
        else
          match RequestMode.from_cstr modePiece with
          | .error e => .error e
          | .ok mode =>
              .ok (if isRead then .ReadRequest filename mode
                   else .WriteRequest filename mode)

/-- `Packet::from_bytes`: length gate (`< 4` is `Incomplete`), big-endian
opcode dispatch, per-opcode body parsing. -/
def Packet.from_bytes (bytes : List Nat) : Except ParseError Packet :=
  if bytes.length < 4 then .error (.Incomplete bytes.length)
  else
    let opcode := readU16 bytes
    let body := bytes.drop 2
    if opcode = 1 then parseReq body true
    else if opcode = 2 then parseReq body false
    else if opcode = 3 then
      if body.length < 2 then .error (.Incomplete body.length)
      else .ok (.Data (readU16 body) (body.drop 2))
    else if opcode = 4 then .ok (.Acknowledgment (readU16 body))
    else if opcode = 5 then
      if body.length < 3 then .error (.Incomplete body.length)
      else
        match ErrorCode.from_u16 (readU16 body) with
        | .error e => .error e
        | .ok code =>
            let rest := body.drop 2
            match rest.getLast? with
            | some 0 =>
                let msg := rest.dropLast
                if 0 ∈ msg then .error .BadString
                else .ok (.Error code msg)
            | _ => .error .BadString
    else .error (.BadOpcode opcode)

/-- A byte string usable as a `CString` payload: genuine bytes, no NUL. -/
def strOk (s : List Nat) : Prop := ∀ b ∈ s, b < 256 ∧ b ≠ 0

instance (s : List Nat) : Decidable (strOk s) := by
  unfold strOk; infer_instance

/-- Legally constructible packets: filename / message byte strings with no
embedded NUL, `u16` block numbers, data payloads of at most 512 bytes. -/
def Packet.wellFormed : Packet → Prop
  | .ReadRequest f _ => strOk f
  | .WriteRequest f _ => strOk f
  | .Data b d => b < 65536 ∧ d.length ≤ 512 ∧ ∀ x ∈ d, x < 256
  | .Acknowledgment b => b < 65536
  | .Error _ msg => strOk msg

instance (p : Packet) : Decidable p.wellFormed := by
  cases p <;> (unfold Packet.wellFormed; infer_instance)

/-! ## Transfer engine (`src/lib.rs`)

The engine is a three-phase loop (`Send`, `SendAgain`, `Recv`).  The `Recv`
phase is driven by external events: a received datagram (with its source
address), a receive timeout, or a socket error.  The step functions below
are direct translations of the corresponding match arms in `download` and
`upload`; a driver then folds them over a list of events, collecting the
packets transmitted and the timeout value armed for each receive. -/

/-- A socket address: IP and port, the parts of `SocketAddr` the engine
reads and writes. -/
structure Addr where
  ip : Nat
  port : Nat
deriving DecidableEq, Repr

/-- Engine phases, `State` in `lib.rs`. -/
inductive Phase
  | Send | SendAgain | Recv
deriving DecidableEq, Repr

/-- Transfer errors, `lib.rs`'s `Error`.  `Protocol` carries the message
bytes (the Rust `String` is their UTF-8 decoding). -/
inductive TftpError
  | BadFilename
  | SocketIo
  | Timeout
  | Parse (e : ParseError)
  | UnexpectedPacket (p : Packet)
  | Protocol (code : ErrorCode) (msg : List Nat)
deriving DecidableEq, Repr

/-- Timing/retry parameters of a transfer: `retries`, `timeout`
(the base timeout) and `max_timeout`, in arbitrary duration units
(nanoseconds in the source; `Duration / 2` is integer division). -/
structure Cfg where
  retries : Nat
  timeout : Nat
  max_timeout : Nat
deriving DecidableEq, Repr

/-- Events observed while blocked in the `Recv` phase. -/
inductive Event
  | Got (peer : Addr) (bytes : List Nat)
  | TimedOut
  | IoErr
deriving DecidableEq, Repr

/-- Mutable state of `download`: the local variables of its loop. -/
structure DlState where
  phase : Phase
  server : Addr
  retries_left : Nat
  current_timeout : Nat
  send_pkt : Packet
  file_data : List Nat
  done : Bool
  last_block_n : Int
deriving DecidableEq, Repr

/-- Mutable state of `upload` (the chunk list is fixed per transfer and
passed separately). -/
structure UlState where
  phase : Phase
  server : Addr
  retries_left : Nat
  current_timeout : Nat
  send_pkt : Packet
  last_block_n : Int
deriving DecidableEq, Repr

/-- Outcome of one `Recv`-phase step of `download`. -/
inductive DStep
  | cont (s : DlState)
  | fail (e : TftpError)
  | panicked
deriving DecidableEq, Repr

/-- Outcome of one `Recv`-phase step of `upload`. -/
inductive UStep
  | cont (s : UlState)
  | finish
  | fail (e : TftpError)
  | panicked
deriving DecidableEq, Repr

/-- Chunking with structural fuel; `fuel` bounds the number of chunks and
is always called with `fuel ≥ l.length`, which never runs out because each
round removes at least one element. -/
def chunksAux : Nat → List Nat → List (List Nat)
  | _, [] => []
  | 0, _ :: _ => []
  | fuel + 1, b :: t => ((b :: t).take 512) :: chunksAux fuel ((b :: t).drop 512)

/-- `data.chunks(BLKSIZE)`: successive chunks of up to 512 bytes; the
empty payload yields no chunks, and no empty trailing chunk is ever
produced. -/
def chunksBLK (l : List Nat) : List (List Nat) := chunksAux l.length l

/-- One `Recv`-phase step of `download` (`lib.rs` lines 105-168): timeout
bookkeeping, source-address filtering, decode, and the per-packet match. -/
def dlRecvStep (cfg : Cfg) (s : DlState) (ev : Event) : DStep :=
  match ev with
  | .TimedOut =>
      -- local_retries -= 1; if 0 fail; grow timeout by half, clamp; SendAgain
      let r := s.retries_left - 1
      if r = 0 then .fail .Timeout
      else
        let t := s.current_timeout + s.current_timeout / 2
        let t := if cfg.max_timeout < t then cfg.max_timeout else t
        .cont { s with retries_left := r, current_timeout := t, phase := .SendAgain }
  | .IoErr => .fail .SocketIo
  | .Got peer bytes =>
      if peer.ip ≠ s.server.ip ∨ (peer.port ≠ s.server.port ∧ s.last_block_n ≠ -1) then
        -- silently ignore data from unexpected places
        .cont s
      else
        match Packet.from_bytes bytes with
        | .error e => .fail (.Parse e)
        | .ok (.Data block_n data) =>
            let srv := if s.last_block_n = -1 then { s.server with port := peer.port }
                       else s.server
            .cont { s with server := srv,
                           last_block_n := toI16 block_n,
                           file_data := s.file_data ++ data,
                           done := if data.length < BLKSIZE then true else s.done,
                           send_pkt := .Acknowledgment block_n,
                           phase := .Send }
        | .ok (.Error code msg) =>
            -- msg.into_string().expect(..) panics on invalid UTF-8
            if utf8Valid msg then .fail (.Protocol code msg) else .panicked
        | .ok other => .fail (.UnexpectedPacket other)

/-- The continuation of `upload`'s Ack handling after the duplicate check:
terminate when `block_n == chunks.len()`, otherwise send the next chunk
(`chunks[block_n]` panics when out of bounds). -/
def ulAck (chunks : List (List Nat)) (s : UlState) (block_n : Nat) : UStep :=
  if block_n = chunks.length then .finish
  else if h : block_n < chunks.length then
    .cont { s with send_pkt := .Data (block_n + 1) chunks[block_n], phase := .Send }
  else .panicked

/-- One `Recv`-phase step of `upload` (`lib.rs` lines 238-311). -/
def ulRecvStep (cfg : Cfg) (chunks : List (List Nat)) (s : UlState) (ev : Event) : UStep :=
  match ev with
  | .TimedOut =>
      let r := s.retries_left - 1
      if r = 0 then .fail .Timeout
      else
        let t := s.current_timeout + s.current_timeout / 2
        let t := if cfg.max_timeout < t then cfg.max_timeout else t
        .cont { s with retries_left := r, current_timeout := t, phase := .SendAgain }
  | .IoErr => .fail .SocketIo
  | .Got peer bytes =>
      if peer.ip ≠ s.server.ip ∨ (peer.port ≠ s.server.port ∧ s.last_block_n ≠ -1) then
        .cont s
      else
        match Packet.from_bytes bytes with
        | .error e => .fail (.Parse e)
        | .ok (.Acknowledgment block_n) =>
            if s.last_block_n = -1 then
              -- first ack: adopt the sender's port, record the block
              ulAck chunks
                { s with server := { s.server with port := peer.port },
                         last_block_n := toI16 block_n } block_n
            else if s.last_block_n = toI16 block_n then
              -- duplicate ack: stay in Recv, change nothing else
              .cont { s with phase := .Recv }
            else
              ulAck chunks { s with last_block_n := toI16 block_n } block_n
        | .ok (.Error code msg) =>
            if utf8Valid msg then .fail (.Protocol code msg) else .panicked
        | .ok other => .fail (.UnexpectedPacket other)

/-- Result of settling the non-receiving phases of `download`: either the
machine is back at `Recv` or the transfer finished (final Ack sent). -/
inductive DSettled
  | atRecv (s : DlState) (sent : List Packet)
  | finished (data : List Nat) (sent : List Packet)
deriving DecidableEq, Repr

/-- Run `download`'s `Send` / `SendAgain` phase (if any) until the machine
is at `Recv` or has finished.  `Send` resets both retry counters and
transmits; it exits the loop when `done` is set.  `SendAgain` retransmits
without touching the counters. -/
def dlSettle (cfg : Cfg) (s : DlState) : DSettled :=
  match s.phase with
  | .Send =>
      let s1 := { s with retries_left := cfg.retries, current_timeout := cfg.timeout }
      if s1.done then .finished s1.file_data [s1.send_pkt]
      else .atRecv { s1 with phase := .Recv } [s1.send_pkt]
  | .SendAgain => .atRecv { s with phase := .Recv } [s.send_pkt]
  | .Recv => .atRecv s []

/-- Run `upload`'s `Send` / `SendAgain` phase (if any); `upload`'s `Send`
never exits the loop. -/
def ulSettle (cfg : Cfg) (s : UlState) : UlState × List Packet :=
  match s.phase with
  | .Send =>
      ({ s with retries_left := cfg.retries, current_timeout := cfg.timeout,
                phase := .Recv }, [s.send_pkt])
  | .SendAgain => ({ s with phase := .Recv }, [s.send_pkt])
  | .Recv => (s, [])

/-- Final outcome of a (partial) `download` run. -/
inductive DlRes
  | ok (data : List Nat)
  | err (e : TftpError)
  | panicked
  | stuck (s : DlState)
deriving DecidableEq, Repr

/-- Trace of a `download` run: every packet transmitted, the timeout value
armed for every receive, and the outcome. -/
structure DlTrace where
  sent : List Packet
  waits : List Nat
  res : DlRes
deriving DecidableEq, Repr

/-- Final outcome of a (partial) `upload` run. -/
inductive UlRes
  | ok
  | err (e : TftpError)
  | panicked
  | stuck (s : UlState)
deriving DecidableEq, Repr

/-- Trace of an `upload` run. -/
structure UlTrace where
  sent : List Packet
  waits : List Nat
  res : UlRes
deriving DecidableEq, Repr

/-- Drive `download` from a state at `Recv` over a list of events. -/
def runDlFrom (cfg : Cfg) (s : DlState) : List Event → DlTrace
  | [] => ⟨[], [], .stuck s⟩
  | ev :: rest =>
      match dlRecvStep cfg s ev with
      | .fail e => ⟨[], [s.current_timeout], .err e⟩
      | .panicked => ⟨[], [s.current_timeout], .panicked⟩
      | .cont s1 =>
          match dlSettle cfg s1 with
          | .finished d out => ⟨out, [s.current_timeout], .ok d⟩
          | .atRecv s2 out =>
              let t := runDlFrom cfg s2 rest
              ⟨out ++ t.sent, s.current_timeout :: t.waits, t.res⟩

/-- Drive `download` from an arbitrary phase over a list of events. -/
def runDl (cfg : Cfg) (s : DlState) (events : List Event) : DlTrace :=
  match dlSettle cfg s with
  | .finished d out => ⟨out, [], .ok d⟩
  | .atRecv s1 out =>
      let t := runDlFrom cfg s1 events
      ⟨out ++ t.sent, t.waits, t.res⟩

/-- Drive `upload` from a state at `Recv` over a list of events. -/
def runUlFrom (cfg : Cfg) (chunks : List (List Nat)) (s : UlState) :
    List Event → UlTrace
  | [] => ⟨[], [], .stuck s⟩
  | ev :: rest =>
      match ulRecvStep cfg chunks s ev with
      | .finish => ⟨[], [s.current_timeout], .ok⟩
      | .fail e => ⟨[], [s.current_timeout], .err e⟩
      | .panicked => ⟨[], [s.current_timeout], .panicked⟩
      | .cont s1 =>
          let p := ulSettle cfg s1
          let t := runUlFrom cfg chunks p.1 rest
          ⟨p.2 ++ t.sent, s.current_timeout :: t.waits, t.res⟩

/-- Drive `upload` from an arbitrary phase over a list of events. -/
def runUl (cfg : Cfg) (chunks : List (List Nat)) (s : UlState)
    (events : List Event) : UlTrace :=
  let p := ulSettle cfg s
  let t := runUlFrom cfg chunks p.1 events
  ⟨p.2 ++ t.sent, t.waits, t.res⟩

/-- Initial state of `download filename ... server`. -/
def dlInit (cfg : Cfg) (server : Addr) (filename : List Nat) : DlState :=
  { phase := .Send, server := server,
    retries_left := cfg.retries, current_timeout := cfg.timeout,
    send_pkt := .ReadRequest filename .Octet,
    file_data := [], done := false, last_block_n := -1 }

/-- Initial state of `upload filename data ... server`; the transfer's
chunk list is `chunksBLK data`. -/
def ulInit (cfg : Cfg) (server : Addr) (filename : List Nat) : UlState :=
  { phase := .Send, server := server,
    retries_left := cfg.retries, current_timeout := cfg.timeout,
    send_pkt := .WriteRequest filename .Octet, last_block_n := -1 }

/-- The spec-side backoff schedule: `backoff M t0 k` is the timeout armed
for the (k+1)-th consecutive receive attempt, each step being
`min (t + t/2) M` starting from `t0`. -/
def backoff (maxT t0 : Nat) : Nat → Nat
  | 0 => t0
  | k + 1 => min (backoff maxT t0 k + backoff maxT t0 k / 2) maxT

/-! ## Codec lemmas -/

theorem strOk_zero_not_mem {s : List Nat} (h : strOk s) : 0 ∉ s :=
  fun hm => (h 0 hm).2 rfl

theorem splitFirst_append_zero (f r : List Nat) (hf : 0 ∉ f) :
    splitFirst (f ++ 0 :: r) = some (f, r) := by
  induction f with
  | nil => simp [splitFirst]
  | cons b t ih =>
      have hb : b ≠ 0 := fun hb => hf (by simp [hb])
      have ht : 0 ∉ t := fun hm => hf (by simp [hm])
      simp [splitFirst, hb, ih ht]

theorem readU16_u16be (n : Nat) (hn : n < 65536) (r : List Nat) :
    readU16 (u16be n ++ r) = n := by
  simp only [u16be, List.cons_append, List.nil_append, readU16]
  omega

theorem u16be_length (n : Nat) : (u16be n).length = 2 := rfl

theorem drop_two_u16be (n : Nat) (r : List Nat) : (u16be n ++ r).drop 2 = r := by
  simp [u16be]

theorem from_cstr_modeBytes (m : RequestMode) :
    RequestMode.from_cstr m.modeBytes = .ok m := by
  cases m <;> rfl

theorem zero_not_mem_modeBytes (m : RequestMode) : 0 ∉ m.modeBytes := by
  cases m <;> decide

theorem from_u16_toU16 (c : ErrorCode) : ErrorCode.from_u16 c.toU16 = .ok c := by
  cases c <;> rfl

theorem toU16_lt (c : ErrorCode) : c.toU16 < 65536 := by
  cases c <;> decide

/-- Evaluation of `Packet.from_bytes` on a byte list of the shape
`0 :: op :: r` with a small opcode and a long-enough body: the length gate
passes and the opcode dispatch is exposed. -/
theorem from_bytes_cons (op : Nat) (r : List Nat) (hlen : 2 ≤ r.length)
    (hop : op < 256) :
    Packet.from_bytes (0 :: op :: r) =
      (if op = 1 then parseReq r true
       else if op = 2 then parseReq r false
       else if op = 3 then
         if r.length < 2 then .error (.Incomplete r.length)
         else .ok (.Data (readU16 r) (r.drop 2))
       else if op = 4 then .ok (.Acknowledgment (readU16 r))
       else if op = 5 then
         if r.length < 3 then .error (.Incomplete r.length)
         else
           match ErrorCode.from_u16 (readU16 r) with
           | .error e => .error e
           | .ok code =>
               match (r.drop 2).getLast? with
               | some 0 =>
                   if 0 ∈ (r.drop 2).dropLast then .error .BadString
                   else .ok (.Error code (r.drop 2).dropLast)
               | _ => .error .BadString
       else .error (.BadOpcode op)) := by
  have hr : readU16 (0 :: op :: r) = op := by
    simp only [readU16]
    omega
  unfold Packet.from_bytes
  simp only [List.length_cons, hr, List.drop_succ_cons, List.drop_zero]
  rw [if_neg (by omega)]

/-- Evaluation of `parseReq` on an encoded request body
`filename ++ NUL ++ modeBytes ++ NUL` with a NUL-free filename of
sufficient length. -/
theorem parseReq_encoded (f : List Nat) (m : RequestMode) (isRead : Bool)
    (hf0 : 0 ∉ f) (hlen : f.length + m.modeBytes.length ≥ 5) :
    parseReq (f ++ 0 :: (m.modeBytes ++ [0])) isRead =
      .ok (if isRead then .ReadRequest f m else .WriteRequest f m) := by
  unfold parseReq
  rw [if_neg (by simp only [List.length_append, List.length_cons]; omega)]
  rw [splitFirst_append_zero f _ hf0]
  simp only
  rw [splitFirst_append_zero m.modeBytes [] (zero_not_mem_modeBytes m)]
  simp only [hf0, zero_not_mem_modeBytes m, from_cstr_modeBytes, if_neg,
    ite_false, ite_true]

/-- C1 (amended), main direction: decoding inverts encoding for every
well-formed packet other than a Read/Write request whose filename is empty
and whose mode is Mail (whose encoded body is 6 bytes, below `parseReq`'s
minimum of 7, hence `Incomplete 6`). -/
theorem c1_roundtrip (p : Packet) (hwf : p.wellFormed)
    (h1 : p ≠ .ReadRequest [] .Mail) (h2 : p ≠ .WriteRequest [] .Mail) :
    Packet.from_bytes p.to_bytes = .ok p := by
  cases p with
  | ReadRequest f m =>
      have hf0 : 0 ∉ f := strOk_zero_not_mem hwf
      have hflen : f.length + m.modeBytes.length ≥ 5 := by
        cases m with
        | Octet =>
            have h5 : (RequestMode.modeBytes .Octet).length = 5 := rfl
            omega
        | NetAscii =>
            have h8 : (RequestMode.modeBytes .NetAscii).length = 8 := rfl
            omega
        | Mail =>
            have h4 : (RequestMode.modeBytes .Mail).length = 4 := rfl
            have hne : f ≠ [] := fun hfe => h1 (by rw [hfe])
            have : 0 < f.length := List.length_pos.mpr hne
            omega
      have hbytes : Packet.to_bytes (.ReadRequest f m) =
          0 :: 1 :: (f ++ 0 :: (m.modeBytes ++ [0])) := by
        simp [Packet.to_bytes, u16be]
      rw [hbytes, from_bytes_cons 1 _ (by simp; omega) (by omega)]
      rw [if_pos rfl, parseReq_encoded f m true hf0 hflen]
      rfl
  | WriteRequest f m =>
      have hf0 : 0 ∉ f := strOk_zero_not_mem hwf
      have hflen : f.length + m.modeBytes.length ≥ 5 := by
        cases m with
        | Octet =>
            have h5 : (RequestMode.modeBytes .Octet).length = 5 := rfl
            omega
        | NetAscii =>
            have h8 : (RequestMode.modeBytes .NetAscii).length = 8 := rfl
            omega
        | Mail =>
            have h4 : (RequestMode.modeBytes .Mail).length = 4 := rfl
            have hne : f ≠ [] := fun hfe => h2 (by rw [hfe])
            have : 0 < f.length := List.length_pos.mpr hne
            omega
      have hbytes : Packet.to_bytes (.WriteRequest f m) =
          0 :: 2 :: (f ++ 0 :: (m.modeBytes ++ [0])) := by
        simp [Packet.to_bytes, u16be]
      rw [hbytes, from_bytes_cons 2 _ (by simp; omega) (by omega)]
      rw [if_neg (by omega), if_pos rfl, parseReq_encoded f m false hf0 hflen]
      rfl
  | Data b d =>
      obtain ⟨hb, -, -⟩ := hwf
      have hbytes : Packet.to_bytes (.Data b d) = 0 :: 3 :: (u16be b ++ d) := by
        simp [Packet.to_bytes, u16be]
      rw [hbytes, from_bytes_cons 3 _ (by simp [u16be]) (by omega)]
      rw [if_neg (by omega), if_neg (by omega), if_pos rfl]
      rw [if_neg (by simp [u16be])]
      rw [readU16_u16be b hb d, drop_two_u16be]
  | Acknowledgment b =>
      have hbytes : Packet.to_bytes (.Acknowledgment b) = 0 :: 4 :: u16be b := by
        simp [Packet.to_bytes, u16be]
      rw [hbytes, from_bytes_cons 4 _ (by simp [u16be]) (by omega)]
      rw [if_neg (by omega), if_neg (by omega), if_neg (by omega), if_pos rfl]
      have hread : readU16 (u16be b) = b := by
        have h := readU16_u16be b hwf []
        simpa using h
      rw [hread]
  | Error c msg =>
      have hm0 : 0 ∉ msg := strOk_zero_not_mem hwf
      have hbytes : Packet.to_bytes (.Error c msg) =
          0 :: 5 :: (u16be c.toU16 ++ (msg ++ [0])) := by
        simp [Packet.to_bytes, u16be]
      rw [hbytes, from_bytes_cons 5 _
        (by simp only [List.length_append, u16be_length, List.length_cons,
          List.length_nil]; omega) (by omega)]
      rw [if_neg (by omega), if_neg (by omega), if_neg (by omega),
          if_neg (by omega), if_pos rfl]
      rw [if_neg (by simp only [List.length_append, u16be_length, List.length_cons,
        List.length_nil]; omega)]
      rw [readU16_u16be c.toU16 (toU16_lt c) (msg ++ [0]), from_u16_toU16]
      rw [drop_two_u16be]
      have hlast : (msg ++ [0]).getLast? = some 0 := by
        rw [List.getLast?_concat]
      have hdrop : (msg ++ [0]).dropLast = msg := List.dropLast_concat
      rw [hlast]
      simp only [hdrop, hm0, if_neg, ite_false]

/-- C1 counterexample: the claim includes the edge case of an empty
filename with mode Mail, but that packet encodes to a 6-byte body and
decodes to `Incomplete 6`, not `Ok(p)`. -/
theorem c1_counterexample :
    Packet.from_bytes (Packet.to_bytes (.ReadRequest [] .Mail)) =
      .error (.Incomplete 6) ∧
    Packet.wellFormed (.ReadRequest [] .Mail) := by
  constructor
  · rfl
  · decide

/-- Witness for `c1_roundtrip` at a concrete packet. -/
theorem c1_roundtrip_witness :
    Packet.wellFormed (.ReadRequest [47, 102] .Octet) ∧
    Packet.from_bytes (Packet.to_bytes (.ReadRequest [47, 102] .Octet)) =
      .ok (.ReadRequest [47, 102] .Octet) :=
  ⟨by decide, c1_roundtrip (.ReadRequest [47, 102] .Octet) (by decide)
    (by decide) (by decide)⟩

/-! ## Engine lemmas -/

/-- The source's clamp `if t > max { t = max }` equals `min t max`. -/
theorem clamp_eq_min (m a : Nat) : (if m < a then m else a) = min a m := by
  rw [Nat.min_def]
  split <;> split <;> omega

/-- The phase of a continuing `download` step, if any. -/
def dPhaseOf : DStep → Option Phase
  | .cont s => some s.phase
  | _ => none

/-- The phase of a continuing `upload` step, if any. -/
def uPhaseOf : UStep → Option Phase
  | .cont s => some s.phase
  | _ => none

/-- The accumulated file bytes of a continuing `download` step, if any. -/
def dFileDataOf : DStep → Option (List Nat)
  | .cont s => some s.file_data
  | _ => none

/-- Evaluation of a `download` receive step on a datagram that fails the
endpoint filter: the state is returned unchanged. -/
theorem dlRecvStep_drop (cfg : Cfg) (s : DlState) (peer : Addr) (bytes : List Nat)
    (hdrop : peer.ip ≠ s.server.ip ∨ (peer.port ≠ s.server.port ∧ s.last_block_n ≠ -1)) :
    dlRecvStep cfg s (.Got peer bytes) = .cont s := by
  simp only [dlRecvStep]
  rw [if_pos hdrop]

/-- Evaluation of an `upload` receive step on a datagram that fails the
endpoint filter: the state is returned unchanged. -/
theorem ulRecvStep_drop (cfg : Cfg) (chunks : List (List Nat)) (u : UlState)
    (peer : Addr) (bytes : List Nat)
    (hdrop : peer.ip ≠ u.server.ip ∨ (peer.port ≠ u.server.port ∧ u.last_block_n ≠ -1)) :
    ulRecvStep cfg chunks u (.Got peer bytes) = .cont u := by
  simp only [ulRecvStep]
  rw [if_pos hdrop]

/-- Evaluation of a `download` receive step on an accepted Data packet. -/
theorem dlRecvStep_data (cfg : Cfg) (s : DlState) (peer : Addr)
    (bytes : List Nat) (b : Nat) (d : List Nat)
    (hip : peer.ip = s.server.ip)
    (hacc : peer.port = s.server.port ∨ s.last_block_n = -1)
    (hbytes : Packet.from_bytes bytes = .ok (.Data b d)) :
    dlRecvStep cfg s (.Got peer bytes) =
      .cont { s with
        server := if s.last_block_n = -1 then ⟨s.server.ip, peer.port⟩ else s.server,
        last_block_n := toI16 b,
        file_data := s.file_data ++ d,
        done := if d.length < BLKSIZE then true else s.done,
        send_pkt := .Acknowledgment b,
        phase := .Send } := by
  simp only [dlRecvStep]
  rw [if_neg (by push_neg; exact ⟨hip, fun hp => hacc.resolve_left hp⟩)]
  rw [hbytes]

/-- Evaluation of a `download` receive step on an accepted Error packet:
fail `Protocol` when the message is valid UTF-8, panic otherwise. -/
theorem dlRecvStep_error2 (cfg : Cfg) (s : DlState) (peer : Addr)
    (bytes : List Nat) (c : ErrorCode) (m : List Nat)
    (hip : peer.ip = s.server.ip)
    (hacc : peer.port = s.server.port ∨ s.last_block_n = -1)
    (hbytes : Packet.from_bytes bytes = .ok (.Error c m)) :
    dlRecvStep cfg s (.Got peer bytes) =
      if utf8Valid m = true then .fail (.Protocol c m) else .panicked := by
  simp only [dlRecvStep]
  rw [if_neg (by push_neg; exact ⟨hip, fun hp => hacc.resolve_left hp⟩)]
  rw [hbytes]

/-- Evaluation of an `upload` receive step on an accepted Ack packet:
the three-way branch on `last_block_n`. -/
theorem ulRecvStep_ack (cfg : Cfg) (chunks : List (List Nat)) (u : UlState)
    (peer : Addr) (bytes : List Nat) (b : Nat)
    (hip : peer.ip = u.server.ip)
    (hacc : peer.port = u.server.port ∨ u.last_block_n = -1)
    (hbytes : Packet.from_bytes bytes = .ok (.Acknowledgment b)) :
    ulRecvStep cfg chunks u (.Got peer bytes) =
      (if u.last_block_n = -1 then
        ulAck chunks { u with server := ⟨u.server.ip, peer.port⟩,
                              last_block_n := toI16 b } b
       else if u.last_block_n = toI16 b then .cont { u with phase := .Recv }
       else ulAck chunks { u with last_block_n := toI16 b } b) := by
  simp only [ulRecvStep]
  rw [if_neg (by push_neg; exact ⟨hip, fun hp => hacc.resolve_left hp⟩)]
  rw [hbytes]

/-- Evaluation of an `upload` receive step on an accepted Error packet. -/
theorem ulRecvStep_error2 (cfg : Cfg) (chunks : List (List Nat)) (u : UlState)
    (peer : Addr) (bytes : List Nat) (c : ErrorCode) (m : List Nat)
    (hip : peer.ip = u.server.ip)
    (hacc : peer.port = u.server.port ∨ u.last_block_n = -1)
    (hbytes : Packet.from_bytes bytes = .ok (.Error c m)) :
    ulRecvStep cfg chunks u (.Got peer bytes) =
      if utf8Valid m = true then .fail (.Protocol c m) else .panicked := by
  simp only [ulRecvStep]
  rw [if_neg (by push_neg; exact ⟨hip, fun hp => hacc.resolve_left hp⟩)]
  rw [hbytes]

/-- C9 counterexample: an Error body whose final byte is not NUL but whose
code bytes are outside `0..=8` yields `BadErrorCode`, not `BadString`: the
`?` on `ErrorCode::from_u16` fires before the trailing-NUL check. -/
theorem c9_counterexample :
    Packet.from_bytes [0, 5, 255, 255, 65] = .error (.BadErrorCode 65535) ∧
    ParseError.BadErrorCode 65535 ≠ ParseError.BadString := by
  exact ⟨rfl, by decide⟩

/-- C9 (amended): an Error packet whose final byte is not NUL yields
`BadString` provided the code bytes decode to a value in `0..=8`
(otherwise `BadErrorCode` wins, see the counterexample). -/
theorem c9_badstring (v : Nat) (r : List Nat) (hv : v ≤ 8) (hne : r ≠ [])
    (hlast : r.getLast? ≠ some 0) :
    Packet.from_bytes (0 :: 5 :: (0 :: v :: r)) = .error .BadString := by
  have hrlen : 0 < r.length := List.length_pos.mpr hne
  rw [from_bytes_cons 5 _ (by simp) (by omega)]
  rw [if_neg (by omega), if_neg (by omega), if_neg (by omega),
      if_neg (by omega), if_pos rfl]
  rw [if_neg (by simp only [List.length_cons]; omega)]
  have hread : readU16 (0 :: v :: r) = v := by
    simp only [readU16]
    omega
  rw [hread]
  have hok : ∃ c, ErrorCode.from_u16 v = .ok c := by
    interval_cases v <;> exact ⟨_, rfl⟩
  obtain ⟨c, hc⟩ := hok
  rw [hc]
  simp only [List.drop_succ_cons, List.drop_zero]

/-- Witness for `c9_badstring`. -/
theorem c9_badstring_witness :
    ((3 : Nat) ≤ 8 ∧ [65] ≠ ([] : List Nat) ∧ [65].getLast? ≠ some 0) ∧
    Packet.from_bytes (0 :: 5 :: (0 :: 3 :: [65])) = .error .BadString :=
  ⟨⟨by decide, by decide, by decide⟩,
   c9_badstring 3 [65] (by decide) (by decide) (by decide)⟩

/-- C2: the code at the failing input.  Uploading the empty payload (length
0, a whole multiple of 512) against a server that acks block 0 transmits
only the WriteRequest — zero Data packets — and reports success; the claim
(and RFC 1350) require one final empty Data packet.  `chunksBLK` produces
no implicit empty trailing chunk (also shown for length 512). -/
theorem c2_empty_payload_sends_no_data :
    runUl ⟨3, 10, 100⟩ (chunksBLK []) (ulInit ⟨3, 10, 100⟩ ⟨5, 69⟩ [97])
        [.Got ⟨5, 70⟩ (Packet.to_bytes (.Acknowledgment 0))] =
      ⟨[.WriteRequest [97] .Octet], [10], .ok⟩ ∧
    chunksBLK [] = [] ∧
    chunksBLK (List.replicate 512 7) = [List.replicate 512 7] := by
  refine ⟨rfl, rfl, ?_⟩
  decide

/-- C3 counterexample: in `lib.rs` a datagram from a different IP is
silently dropped even before the first valid reply (`last_block_n == −1`);
the claim says it would be accepted and its endpoint locked. -/
theorem c3_counterexample :
    dlRecvStep ⟨3, 10, 100⟩
        { phase := .Recv, server := ⟨5, 69⟩, retries_left := 3,
          current_timeout := 10, send_pkt := .ReadRequest [97] .Octet,
          file_data := [], done := false, last_block_n := -1 }
        (.Got ⟨9, 70⟩ (Packet.to_bytes (.Data 1 [42]))) =
      .cont
        { phase := .Recv, server := ⟨5, 69⟩, retries_left := 3,
          current_timeout := 10, send_pkt := .ReadRequest [97] .Octet,
          file_data := [], done := false, last_block_n := -1 } := by
  rfl

/-- C3 (amended): `lib.rs` endpoint filtering.  A datagram whose IP differs
from `server_addr`, or whose port differs once `last_block_n ≠ −1`, is
dropped with no state change (in particular no retry is consumed); before
the first valid reply a datagram from any port at the expected IP is
accepted and its port is locked into `server_addr`. -/
theorem c3_tid_locking (cfg : Cfg) (chunks : List (List Nat))
    (s : DlState) (u : UlState) (peer pa : Addr)
    (bytes bytesD bytesA : List Nat) (b : Nat) (d : List Nat) (b2 : Nat)
    (hdropD : peer.ip ≠ s.server.ip ∨ (peer.port ≠ s.server.port ∧ s.last_block_n ≠ -1))
    (hdropU : peer.ip ≠ u.server.ip ∨ (peer.port ≠ u.server.port ∧ u.last_block_n ≠ -1))
    (hfirstD : s.last_block_n = -1) (hipD : pa.ip = s.server.ip)
    (hdata : Packet.from_bytes bytesD = .ok (.Data b d))
    (hfirstU : u.last_block_n = -1) (hipU : pa.ip = u.server.ip)
    (hack : Packet.from_bytes bytesA = .ok (.Acknowledgment b2))
    (hb2 : b2 < chunks.length) :
    dlRecvStep cfg s (.Got peer bytes) = .cont s ∧
    ulRecvStep cfg chunks u (.Got peer bytes) = .cont u ∧
    dlRecvStep cfg s (.Got pa bytesD) =
      .cont { s with server := ⟨s.server.ip, pa.port⟩,
                     last_block_n := toI16 b,
                     file_data := s.file_data ++ d,
                     done := if d.length < BLKSIZE then true else s.done,
                     send_pkt := .Acknowledgment b,
                     phase := .Send } ∧
    ulRecvStep cfg chunks u (.Got pa bytesA) =
      .cont { u with server := ⟨u.server.ip, pa.port⟩,
                     last_block_n := toI16 b2,
                     send_pkt := .Data (b2 + 1) chunks[b2],
                     phase := .Send } := by
  refine ⟨dlRecvStep_drop cfg s peer bytes hdropD,
          ulRecvStep_drop cfg chunks u peer bytes hdropU, ?_, ?_⟩
  · rw [dlRecvStep_data cfg s pa bytesD b d hipD (Or.inr hfirstD) hdata]
    rw [if_pos hfirstD]
  · rw [ulRecvStep_ack cfg chunks u pa bytesA b2 hipU (Or.inr hfirstU) hack]
    rw [if_pos hfirstU]
    unfold ulAck
    rw [if_neg (Nat.ne_of_lt hb2), dif_pos hb2]

/-- Witness for `c3_tid_locking`. -/
theorem c3_tid_locking_witness :
    dlRecvStep ⟨3, 10, 100⟩
        { phase := .Recv, server := ⟨5, 69⟩, retries_left := 3,
          current_timeout := 10, send_pkt := .ReadRequest [97] .Octet,
          file_data := [], done := false, last_block_n := -1 }
        (.Got ⟨9, 70⟩ [0, 4, 0, 0]) =
      .cont
        { phase := .Recv, server := ⟨5, 69⟩, retries_left := 3,
          current_timeout := 10, send_pkt := .ReadRequest [97] .Octet,
          file_data := [], done := false, last_block_n := -1 } := by
  exact (c3_tid_locking ⟨3, 10, 100⟩ [[42]]
    { phase := .Recv, server := ⟨5, 69⟩, retries_left := 3,
      current_timeout := 10, send_pkt := .ReadRequest [97] .Octet,
      file_data := [], done := false, last_block_n := -1 }
    { phase := .Recv, server := ⟨5, 69⟩, retries_left := 3,
      current_timeout := 10, send_pkt := .WriteRequest [97] .Octet,
      last_block_n := -1 }
    ⟨9, 70⟩ ⟨5, 70⟩ [0, 4, 0, 0] (Packet.to_bytes (.Data 1 [42]))
    (Packet.to_bytes (.Acknowledgment 0)) 1 [42] 0
    (by decide) (by decide) (by decide) (by decide) rfl
    (by decide) (by decide) rfl (by decide)).1

/-- C5: a duplicate Ack (same `block_n as i16` as `last_block_n`, which is
not −1) from the locked peer leaves the upload state completely unchanged —
still in `Recv`, same `pending_tx`, same `retries_left`, same
`current_timeout` — and triggers no retransmission. -/
theorem c5_duplicate_ack (cfg : Cfg) (chunks : List (List Nat)) (s : UlState)
    (peer : Addr) (bytes : List Nat) (b : Nat)
    (hphase : s.phase = .Recv)
    (hip : peer.ip = s.server.ip) (hport : peer.port = s.server.port)
    (hbytes : Packet.from_bytes bytes = .ok (.Acknowledgment b))
    (hne : s.last_block_n ≠ -1) (hdup : s.last_block_n = toI16 b) :
    ulRecvStep cfg chunks s (.Got peer bytes) = .cont s := by
  rw [ulRecvStep_ack cfg chunks s peer bytes b hip (Or.inl hport) hbytes]
  rw [if_neg hne, if_pos hdup]
  have heq : { s with phase := Phase.Recv } = s := by
    cases s
    simp_all
  rw [heq]

/-- Witness for `c5_duplicate_ack`. -/
theorem c5_duplicate_ack_witness :
    ulRecvStep ⟨3, 10, 100⟩ [[1], [2]]
        { phase := .Recv, server := ⟨5, 70⟩, retries_left := 2,
          current_timeout := 15, send_pkt := .Data 1 [1],
          last_block_n := 1 }
        (.Got ⟨5, 70⟩ (Packet.to_bytes (.Acknowledgment 1))) =
      .cont
        { phase := .Recv, server := ⟨5, 70⟩, retries_left := 2,
          current_timeout := 15, send_pkt := .Data 1 [1],
          last_block_n := 1 } :=
  c5_duplicate_ack ⟨3, 10, 100⟩ [[1], [2]] _ ⟨5, 70⟩ _ 1 rfl rfl rfl rfl
    (by decide) (by decide)

/-- C6 counterexample: a well-formed Error packet whose message bytes are
not valid UTF-8 (here `[0xFF]`) makes the receive handler panic
(`msg.into_string().expect(..)`), so the operation does not return the
`Protocol` error the claim promises for every message byte string. -/
theorem c6_counterexample :
    runDlFrom ⟨3, 10, 100⟩
        { phase := .Recv, server := ⟨5, 69⟩, retries_left := 3,
          current_timeout := 10, send_pkt := .ReadRequest [97] .Octet,
          file_data := [], done := false, last_block_n := -1 }
        [.Got ⟨5, 69⟩ (Packet.to_bytes (.Error .Unspec [255]))] =
      ⟨[], [10], .panicked⟩ := by
  rfl

/-- C6 (amended): receiving a well-formed Error packet from the accepted
peer whose message is valid UTF-8 makes both download and upload return
the `Protocol{code, msg}` error immediately, transmitting nothing further
(for every error code and every valid-UTF-8 message; a non-UTF-8 message
panics instead, see the counterexample). -/
theorem c6_protocol_error (cfg : Cfg) (chunks : List (List Nat))
    (s : DlState) (u : UlState) (peer : Addr) (bytes : List Nat)
    (c : ErrorCode) (m : List Nat) (rest restU : List Event)
    (hipD : peer.ip = s.server.ip)
    (haccD : peer.port = s.server.port ∨ s.last_block_n = -1)
    (hipU : peer.ip = u.server.ip)
    (haccU : peer.port = u.server.port ∨ u.last_block_n = -1)
    (hbytes : Packet.from_bytes bytes = .ok (.Error c m))
    (hutf : utf8Valid m = true) :
    runDlFrom cfg s (.Got peer bytes :: rest) =
      ⟨[], [s.current_timeout], .err (.Protocol c m)⟩ ∧
    runUlFrom cfg chunks u (.Got peer bytes :: restU) =
      ⟨[], [u.current_timeout], .err (.Protocol c m)⟩ := by
  constructor
  · have h := dlRecvStep_error2 cfg s peer bytes c m hipD haccD hbytes
    rw [if_pos hutf] at h
    simp only [runDlFrom, h]
  · have h := ulRecvStep_error2 cfg chunks u peer bytes c m hipU haccU hbytes
    rw [if_pos hutf] at h
    simp only [runUlFrom, h]

/-- Witness for `c6_protocol_error`. -/
theorem c6_protocol_error_witness :
    runDlFrom ⟨3, 10, 100⟩
        { phase := .Recv, server := ⟨5, 69⟩, retries_left := 3,
          current_timeout := 10, send_pkt := .ReadRequest [97] .Octet,
          file_data := [], done := false, last_block_n := -1 }
        [.Got ⟨5, 69⟩ (Packet.to_bytes (.Error .NoFile [110]))] =
      ⟨[], [10], .err (.Protocol .NoFile [110])⟩ ∧
    runUlFrom ⟨3, 10, 100⟩ []
        { phase := .Recv, server := ⟨5, 69⟩, retries_left := 3,
          current_timeout := 10, send_pkt := .WriteRequest [97] .Octet,
          last_block_n := -1 }
        [.Got ⟨5, 69⟩ (Packet.to_bytes (.Error .NoFile [110]))] =
      ⟨[], [10], .err (.Protocol .NoFile [110])⟩ :=
  c6_protocol_error ⟨3, 10, 100⟩ [] _ _ ⟨5, 69⟩ _ .NoFile [110] [] []
    rfl (Or.inl rfl) rfl (Or.inl rfl) rfl rfl

/-- C7 counterexample: uploading `[1,2,3]` with `max_retries = 2`,
`base_timeout = 10`: after Ack 0 (progress) and one timeout
(`retries_left = 1`, `current_timeout = 15`), a duplicate Ack 0 from the
locked peer is a successful receive, yet at the next entry of `Recv` the
counters are still 1 and 15 — not restored to 2 and 10. -/
theorem c7_counterexample :
    (runUl ⟨2, 10, 100⟩ (chunksBLK [1, 2, 3]) (ulInit ⟨2, 10, 100⟩ ⟨5, 69⟩ [97])
        [.Got ⟨5, 70⟩ (Packet.to_bytes (.Acknowledgment 0)), .TimedOut,
         .Got ⟨5, 70⟩ (Packet.to_bytes (.Acknowledgment 0))]).res =
      .stuck { phase := .Recv, server := ⟨5, 70⟩, retries_left := 1,
               current_timeout := 15, send_pkt := .Data 1 [1, 2, 3],
               last_block_n := 0 } := by
  rfl

/-- C7 (amended): after every successful receive that makes forward
progress — an accepted Data packet in download, an accepted non-duplicate
Ack of a non-final block in upload — the machine moves to `Send`, and the
`Send` phase restores `retries_left = max_retries` and
`current_timeout = base_timeout` before the next entry of `Recv`.  (A
duplicate Ack in upload stays in `Recv` and leaves the counters as they
are, see the counterexample.) -/
theorem c7_counters_reset (cfg : Cfg) (chunks : List (List Nat))
    (s : DlState) (u : UlState) (peer pu : Addr)
    (bytesD bytesA : List Nat) (b : Nat) (d : List Nat) (b2 : Nat)
    (sD : DlState) (uS : UlState)
    (hipD : peer.ip = s.server.ip)
    (haccD : peer.port = s.server.port ∨ s.last_block_n = -1)
    (hdata : Packet.from_bytes bytesD = .ok (.Data b d))
    (hipU : pu.ip = u.server.ip)
    (haccU : pu.port = u.server.port ∨ u.last_block_n = -1)
    (hack : Packet.from_bytes bytesA = .ok (.Acknowledgment b2))
    (hprog : u.last_block_n = -1 ∨ u.last_block_n ≠ toI16 b2)
    (hb2 : b2 < chunks.length)
    (hsD : sD.phase = .Send) (hsDdone : sD.done = false)
    (huS : uS.phase = .Send) :
    dPhaseOf (dlRecvStep cfg s (.Got peer bytesD)) = some .Send ∧
    uPhaseOf (ulRecvStep cfg chunks u (.Got pu bytesA)) = some .Send ∧
    dlSettle cfg sD =
      .atRecv { sD with retries_left := cfg.retries,
                        current_timeout := cfg.timeout, phase := .Recv }
        [sD.send_pkt] ∧
    ulSettle cfg uS =
      ({ uS with retries_left := cfg.retries, current_timeout := cfg.timeout,
                 phase := .Recv }, [uS.send_pkt]) := by
  refine ⟨?_, ?_, ?_, ?_⟩
  · rw [dlRecvStep_data cfg s peer bytesD b d hipD haccD hdata]
    rfl
  · rw [ulRecvStep_ack cfg chunks u pu bytesA b2 hipU haccU hack]
    by_cases hfirst : u.last_block_n = -1
    · rw [if_pos hfirst]
      unfold ulAck
      rw [if_neg (Nat.ne_of_lt hb2), dif_pos hb2]
      rfl
    · rw [if_neg hfirst, if_neg (hprog.resolve_left hfirst)]
      unfold ulAck
      rw [if_neg (Nat.ne_of_lt hb2), dif_pos hb2]
      rfl
  · cases sD with
    | mk ph sv rl ct sp fd dn lb =>
        cases hsD
        cases hsDdone
        rfl
  · cases uS with
    | mk ph sv rl ct sp lb =>
        cases huS
        rfl

/-- Witness for `c7_counters_reset`. -/
theorem c7_counters_reset_witness :
    dPhaseOf (dlRecvStep ⟨3, 10, 100⟩
        { phase := .Recv, server := ⟨5, 69⟩, retries_left := 3,
          current_timeout := 10, send_pkt := .ReadRequest [97] .Octet,
          file_data := [], done := false, last_block_n := -1 }
        (.Got ⟨5, 70⟩ (Packet.to_bytes (.Data 1 [42])))) = some .Send ∧
    uPhaseOf (ulRecvStep ⟨3, 10, 100⟩ [[1], [2]]
        { phase := .Recv, server := ⟨5, 69⟩, retries_left := 3,
          current_timeout := 10, send_pkt := .WriteRequest [97] .Octet,
          last_block_n := -1 }
        (.Got ⟨5, 70⟩ (Packet.to_bytes (.Acknowledgment 0)))) = some .Send ∧
    dlSettle ⟨3, 10, 100⟩
        { phase := .Send, server := ⟨5, 70⟩, retries_left := 1,
          current_timeout := 99, send_pkt := .Acknowledgment 1,
          file_data := [42], done := false, last_block_n := 1 } =
      .atRecv
        { phase := .Recv, server := ⟨5, 70⟩, retries_left := 3,
          current_timeout := 10, send_pkt := .Acknowledgment 1,
          file_data := [42], done := false, last_block_n := 1 }
        [.Acknowledgment 1] ∧
    ulSettle ⟨3, 10, 100⟩
        { phase := .Send, server := ⟨5, 70⟩, retries_left := 1,
          current_timeout := 99, send_pkt := .Data 1 [1],
          last_block_n := 0 } =
      ({ phase := .Recv, server := ⟨5, 70⟩, retries_left := 3,
         current_timeout := 10, send_pkt := .Data 1 [1],
         last_block_n := 0 }, [.Data 1 [1]]) :=
  c7_counters_reset ⟨3, 10, 100⟩ [[1], [2]] _ _ ⟨5, 70⟩ ⟨5, 70⟩ _ _ 1 [42] 0
    _ _ rfl (Or.inr rfl) rfl rfl (Or.inr rfl) rfl (Or.inl rfl) (by decide)
    rfl rfl rfl

/-- If `upload`'s post-duplicate Ack continuation keeps running
(`.cont`), it never touches `server_addr`. -/
theorem ulAck_cont_server (chunks : List (List Nat)) (x : UlState) (b : Nat)
    (s' : UlState) (h : ulAck chunks x b = .cont s') : s'.server = x.server := by
  unfold ulAck at h
  split at h
  · cases h
  · split at h
    · cases h
      rfl
    · cases h

/-- Any continuing `download` receive step preserves the server IP. -/
theorem dlRecvStep_cont_ip (cfg : Cfg) (s : DlState) (ev : Event)
    (s' : DlState) (h : dlRecvStep cfg s ev = .cont s') :
    s'.server.ip = s.server.ip := by
  cases ev with
  | TimedOut =>
      simp only [dlRecvStep] at h
      split at h
      · cases h
      · cases h
        rfl
  | IoErr =>
      simp only [dlRecvStep] at h
      cases h
  | Got peer bytes =>
      simp only [dlRecvStep] at h
      split at h
      · cases h
        rfl
      · split at h
        · cases h
        · cases h
          dsimp only
          split <;> rfl
        · split at h
          · cases h
          · cases h
        · cases h

/-- Once `last_block_n ≠ −1`, a continuing `download` receive step
preserves `server_addr` entirely. -/
theorem dlRecvStep_cont_server (cfg : Cfg) (s : DlState) (ev : Event)
    (s' : DlState) (hl : s.last_block_n ≠ -1)
    (h : dlRecvStep cfg s ev = .cont s') : s'.server = s.server := by
  cases ev with
  | TimedOut =>
      simp only [dlRecvStep] at h
      split at h
      · cases h
      · cases h
        rfl
  | IoErr =>
      simp only [dlRecvStep] at h
      cases h
  | Got peer bytes =>
      simp only [dlRecvStep] at h
      split at h
      · cases h
        rfl
      · split at h
        · cases h
        · cases h
          dsimp only
        · split at h
          · cases h
          · cases h
        · cases h

/-- Any continuing `upload` receive step preserves the server IP. -/
theorem ulRecvStep_cont_ip (cfg : Cfg) (chunks : List (List Nat))
    (u : UlState) (ev : Event) (u' : UlState)
    (h : ulRecvStep cfg chunks u ev = .cont u') :
    u'.server.ip = u.server.ip := by
  cases ev with
  | TimedOut =>
      simp only [ulRecvStep] at h
      split at h
      · cases h
      · cases h
        rfl
  | IoErr =>
      simp only [ulRecvStep] at h
      cases h
  | Got peer bytes =>
      simp only [ulRecvStep] at h
      split at h
      · cases h
        rfl
      · split at h
        · cases h
        · split at h
          · rw [ulAck_cont_server _ _ _ _ h]
          · split at h
            · cases h
              rfl
            · rw [ulAck_cont_server _ _ _ _ h]
        · split at h
          · cases h
          · cases h
        · cases h

/-- Once `last_block_n ≠ −1`, a continuing `upload` receive step preserves
`server_addr` entirely. -/
theorem ulRecvStep_cont_server (cfg : Cfg) (chunks : List (List Nat))
    (u : UlState) (ev : Event) (u' : UlState) (hl : u.last_block_n ≠ -1)
    (h : ulRecvStep cfg chunks u ev = .cont u') : u'.server = u.server := by
  cases ev with
  | TimedOut =>
      simp only [ulRecvStep] at h
      split at h
      · cases h
      · cases h
        rfl
  | IoErr =>
      simp only [ulRecvStep] at h
      cases h
  | Got peer bytes =>
      simp only [ulRecvStep] at h
      split at h
      · cases h
        rfl
      · split at h
        · cases h
        · split at h
          · cases h
            rfl
          · rw [ulAck_cont_server _ _ _ _ h]
        · split at h
          · cases h
          · cases h
        · cases h

/-- C8 counterexample: a first Data packet with `block_n = 65535` is
recorded as `last_block_n = (65535 as i16) = −1`, so the very next
accepted datagram is again treated as "first": the server port is mutated
a second time (10 → 20 → 30), refuting "server_addr is mutated at most
once". -/
theorem c8_counterexample :
    dlRecvStep ⟨5, 10, 100⟩
        { phase := .Recv, server := ⟨5, 10⟩, retries_left := 5,
          current_timeout := 10, send_pkt := .ReadRequest [97] .Octet,
          file_data := [], done := false, last_block_n := -1 }
        (.Got ⟨5, 20⟩ (Packet.to_bytes (.Data 65535 (List.replicate 512 7)))) =
      .cont
        { phase := .Send, server := ⟨5, 20⟩, retries_left := 5,
          current_timeout := 10, send_pkt := .Acknowledgment 65535,
          file_data := List.replicate 512 7, done := false,
          last_block_n := -1 } ∧
    dlSettle ⟨5, 10, 100⟩
        { phase := .Send, server := ⟨5, 20⟩, retries_left := 5,
          current_timeout := 10, send_pkt := .Acknowledgment 65535,
          file_data := List.replicate 512 7, done := false,
          last_block_n := -1 } =
      .atRecv
        { phase := .Recv, server := ⟨5, 20⟩, retries_left := 5,
          current_timeout := 10, send_pkt := .Acknowledgment 65535,
          file_data := List.replicate 512 7, done := false,
          last_block_n := -1 }
        [.Acknowledgment 65535] ∧
    dlRecvStep ⟨5, 10, 100⟩
        { phase := .Recv, server := ⟨5, 20⟩, retries_left := 5,
          current_timeout := 10, send_pkt := .Acknowledgment 65535,
          file_data := List.replicate 512 7, done := false,
          last_block_n := -1 }
        (.Got ⟨5, 30⟩ (Packet.to_bytes (.Data 1 [9]))) =
      .cont
        { phase := .Send, server := ⟨5, 30⟩, retries_left := 5,
          current_timeout := 10, send_pkt := .Acknowledgment 1,
          file_data := List.replicate 512 7 ++ [9], done := true,
          last_block_n := 1 } := by
  refine ⟨?_, rfl, ?_⟩ <;> rfl

/-- C8 (amended): over a transfer, `server_addr`'s IP never changes, and
its port is fixed whenever `last_block_n ≠ −1`.  Since a reply carrying
`block_n = 65535` stores `last_block_n = −1` again (the `as i16` cast),
"mutated at most once" fails: the port can change on every accepted
datagram received while `last_block_n = −1`, see the counterexample. -/
theorem c8_server_addr (cfg : Cfg) (chunks : List (List Nat))
    (s1 s2 : DlState) (u1 u2 : UlState) (ev1 ev2 ev3 ev4 : Event)
    (s1' s2' : DlState) (u1' u2' : UlState)
    (hD1 : dlRecvStep cfg s1 ev1 = .cont s1')
    (hD2 : dlRecvStep cfg s2 ev2 = .cont s2') (hl2 : s2.last_block_n ≠ -1)
    (hU1 : ulRecvStep cfg chunks u1 ev3 = .cont u1')
    (hU2 : ulRecvStep cfg chunks u2 ev4 = .cont u2')
    (hl4 : u2.last_block_n ≠ -1) :
    s1'.server.ip = s1.server.ip ∧ s2'.server = s2.server ∧
    u1'.server.ip = u1.server.ip ∧ u2'.server = u2.server :=
  ⟨dlRecvStep_cont_ip cfg s1 ev1 s1' hD1,
   dlRecvStep_cont_server cfg s2 ev2 s2' hl2 hD2,
   ulRecvStep_cont_ip cfg chunks u1 ev3 u1' hU1,
   ulRecvStep_cont_server cfg chunks u2 ev4 u2' hl4 hU2⟩

/-- Witness for `c8_server_addr`. -/
theorem c8_server_addr_witness :
    (Addr.mk 5 70).ip = (Addr.mk 5 69).ip ∧
    Addr.mk 5 69 = Addr.mk 5 69 ∧
    (Addr.mk 5 70).ip = (Addr.mk 5 69).ip ∧
    Addr.mk 5 69 = Addr.mk 5 69 :=
  c8_server_addr ⟨3, 10, 100⟩ [[1], [2]]
    { phase := .Recv, server := ⟨5, 69⟩, retries_left := 3,
      current_timeout := 10, send_pkt := .ReadRequest [97] .Octet,
      file_data := [], done := false, last_block_n := -1 }
    { phase := .Recv, server := ⟨5, 69⟩, retries_left := 3,
      current_timeout := 10, send_pkt := .Acknowledgment 1,
      file_data := [], done := false, last_block_n := 1 }
    { phase := .Recv, server := ⟨5, 69⟩, retries_left := 3,
      current_timeout := 10, send_pkt := .WriteRequest [97] .Octet,
      last_block_n := -1 }
    { phase := .Recv, server := ⟨5, 69⟩, retries_left := 3,
      current_timeout := 10, send_pkt := .Data 1 [1],
      last_block_n := 1 }
    (.Got ⟨5, 70⟩ (Packet.to_bytes (.Data 1 [42]))) .TimedOut
    (.Got ⟨5, 70⟩ (Packet.to_bytes (.Acknowledgment 0))) .TimedOut
    { phase := .Send, server := ⟨5, 70⟩, retries_left := 3,
      current_timeout := 10, send_pkt := .Acknowledgment 1,
      file_data := [42], done := true, last_block_n := 1 }
    { phase := .SendAgain, server := ⟨5, 69⟩, retries_left := 2,
      current_timeout := 15, send_pkt := .Acknowledgment 1,
      file_data := [], done := false, last_block_n := 1 }
    { phase := .Send, server := ⟨5, 70⟩, retries_left := 3,
      current_timeout := 10, send_pkt := .Data 1 [1],
      last_block_n := 0 }
    { phase := .SendAgain, server := ⟨5, 69⟩, retries_left := 2,
      current_timeout := 15, send_pkt := .Data 1 [1],
      last_block_n := 1 }
    rfl rfl (by decide) rfl rfl (by decide)

/-- C10: during download every accepted Data packet's payload is appended
to the buffer unconditionally — `block_n` is never compared against
`last_block_n` — so a full-size Data block delivered twice by the accepted
peer contributes its payload twice to the accumulated file bytes. -/
theorem c10_duplicate_data (cfg : Cfg) (sa s : DlState) (pa peer : Addr)
    (bytesA bytes : List Nat) (ba b : Nat) (da d : List Nat)
    (hipA : pa.ip = sa.server.ip)
    (haccA : pa.port = sa.server.port ∨ sa.last_block_n = -1)
    (hdataA : Packet.from_bytes bytesA = .ok (.Data ba da))
    (hip : peer.ip = s.server.ip) (hfirst : s.last_block_n = -1)
    (hdata : Packet.from_bytes bytes = .ok (.Data b d))
    (hlen : d.length = BLKSIZE) (hdone : s.done = false) :
    dFileDataOf (dlRecvStep cfg sa (.Got pa bytesA)) =
      some (sa.file_data ++ da) ∧
    dlRecvStep cfg s (.Got peer bytes) =
      .cont { s with server := ⟨s.server.ip, peer.port⟩,
                     last_block_n := toI16 b, file_data := s.file_data ++ d,
                     done := false, send_pkt := .Acknowledgment b,
                     phase := .Send } ∧
    dlSettle cfg
        { s with server := ⟨s.server.ip, peer.port⟩,
                 last_block_n := toI16 b, file_data := s.file_data ++ d,
                 done := false, send_pkt := .Acknowledgment b,
                 phase := .Send } =
      .atRecv
        { s with server := ⟨s.server.ip, peer.port⟩,
                 last_block_n := toI16 b, file_data := s.file_data ++ d,
                 done := false, send_pkt := .Acknowledgment b,
                 phase := .Recv, retries_left := cfg.retries,
                 current_timeout := cfg.timeout } [.Acknowledgment b] ∧
    dFileDataOf (dlRecvStep cfg
        { s with server := ⟨s.server.ip, peer.port⟩,
                 last_block_n := toI16 b, file_data := s.file_data ++ d,
                 done := false, send_pkt := .Acknowledgment b,
                 phase := .Recv, retries_left := cfg.retries,
                 current_timeout := cfg.timeout }
        (.Got peer bytes)) = some (s.file_data ++ d ++ d) := by
  refine ⟨?_, ?_, rfl, ?_⟩
  · rw [dlRecvStep_data cfg sa pa bytesA ba da hipA haccA hdataA]
    rfl
  · rw [dlRecvStep_data cfg s peer bytes b d hip (Or.inr hfirst) hdata]
    rw [if_pos hfirst, hlen, if_neg (lt_irrefl BLKSIZE), hdone]
  · have h2 := dlRecvStep_data cfg
      { s with server := ⟨s.server.ip, peer.port⟩, last_block_n := toI16 b,
               file_data := s.file_data ++ d, done := false,
               send_pkt := .Acknowledgment b, phase := .Recv,
               retries_left := cfg.retries, current_timeout := cfg.timeout }
      peer bytes b d hip (Or.inl rfl) hdata
    rw [h2]
    rfl

/-- Witness for `c10_duplicate_data`. -/
theorem c10_duplicate_data_witness :
    dFileDataOf (dlRecvStep ⟨3, 10, 100⟩
        { phase := .Recv, server := ⟨5, 69⟩, retries_left := 3,
          current_timeout := 10, send_pkt := .Acknowledgment 2,
          file_data := [8], done := false, last_block_n := 2 }
        (.Got ⟨5, 69⟩ (Packet.to_bytes (.Data 2 [42])))) = some ([8] ++ [42]) ∧
    dlRecvStep ⟨3, 10, 100⟩
        { phase := .Recv, server := ⟨5, 69⟩, retries_left := 3,
          current_timeout := 10, send_pkt := .ReadRequest [97] .Octet,
          file_data := [], done := false, last_block_n := -1 }
        (.Got ⟨5, 70⟩ (Packet.to_bytes (.Data 1 (List.replicate 512 3)))) =
      .cont
        { phase := .Send, server := ⟨5, 70⟩, retries_left := 3,
          current_timeout := 10, send_pkt := .Acknowledgment 1,
          file_data := [] ++ List.replicate 512 3, done := false,
          last_block_n := toI16 1 } ∧
    dlSettle ⟨3, 10, 100⟩
        { phase := .Send, server := ⟨5, 70⟩, retries_left := 3,
          current_timeout := 10, send_pkt := .Acknowledgment 1,
          file_data := [] ++ List.replicate 512 3, done := false,
          last_block_n := toI16 1 } =
      .atRecv
        { phase := .Recv, server := ⟨5, 70⟩, retries_left := 3,
          current_timeout := 10, send_pkt := .Acknowledgment 1,
          file_data := [] ++ List.replicate 512 3, done := false,
          last_block_n := toI16 1 } [.Acknowledgment 1] ∧
    dFileDataOf (dlRecvStep ⟨3, 10, 100⟩
        { phase := .Recv, server := ⟨5, 70⟩, retries_left := 3,
          current_timeout := 10, send_pkt := .Acknowledgment 1,
          file_data := [] ++ List.replicate 512 3, done := false,
          last_block_n := toI16 1 }
        (.Got ⟨5, 70⟩ (Packet.to_bytes (.Data 1 (List.replicate 512 3))))) =
      some ([] ++ List.replicate 512 3 ++ List.replicate 512 3) :=
  c10_duplicate_data ⟨3, 10, 100⟩
    { phase := .Recv, server := ⟨5, 69⟩, retries_left := 3,
      current_timeout := 10, send_pkt := .Acknowledgment 2,
      file_data := [8], done := false, last_block_n := 2 }
    { phase := .Recv, server := ⟨5, 69⟩, retries_left := 3,
      current_timeout := 10, send_pkt := .ReadRequest [97] .Octet,
      file_data := [], done := false, last_block_n := -1 }
    ⟨5, 69⟩ ⟨5, 70⟩ (Packet.to_bytes (.Data 2 [42]))
    (Packet.to_bytes (.Data 1 (List.replicate 512 3))) 2 1 [42]
    (List.replicate 512 3)
    rfl (Or.inl rfl) rfl rfl (by decide) rfl rfl rfl

/-! ## C4: backoff schedule -/

theorem backoff_shift (M t j : Nat) :
    backoff M t (j + 1) = backoff M (min (t + t / 2) M) j := by
  induction j with
  | zero => rfl
  | succ n ih =>
      show min (backoff M t (n + 1) + backoff M t (n + 1) / 2) M = _
      rw [ih]
      rfl

theorem range_map_backoff (M t n : Nat) :
    (List.range (n + 1)).map (backoff M t) =
      t :: (List.range n).map (backoff M (min (t + t / 2) M)) := by
  rw [List.range_succ_eq_map]
  simp only [List.map_cons, List.map_map]
  have hc : (backoff M t ∘ Nat.succ) = backoff M (min (t + t / 2) M) := by
    funext j
    exact backoff_shift M t j
  rw [hc]
  rfl

theorem runDlFrom_cons_fail (cfg : Cfg) (s : DlState) (ev : Event)
    (rest : List Event) (e : TftpError)
    (hstep : dlRecvStep cfg s ev = .fail e) :
    runDlFrom cfg s (ev :: rest) = ⟨[], [s.current_timeout], .err e⟩ := by
  simp only [runDlFrom, hstep]

theorem runDlFrom_cons_cont (cfg : Cfg) (s : DlState) (ev : Event)
    (rest : List Event) (s1 s2 : DlState) (out : List Packet)
    (hstep : dlRecvStep cfg s ev = .cont s1)
    (hsettle : dlSettle cfg s1 = .atRecv s2 out) :
    runDlFrom cfg s (ev :: rest) =
      ⟨out ++ (runDlFrom cfg s2 rest).sent,
       s.current_timeout :: (runDlFrom cfg s2 rest).waits,
       (runDlFrom cfg s2 rest).res⟩ := by
  simp only [runDlFrom, hstep, hsettle]

theorem runUlFrom_cons_fail (cfg : Cfg) (chunks : List (List Nat))
    (u : UlState) (ev : Event) (rest : List Event) (e : TftpError)
    (hstep : ulRecvStep cfg chunks u ev = .fail e) :
    runUlFrom cfg chunks u (ev :: rest) = ⟨[], [u.current_timeout], .err e⟩ := by
  simp only [runUlFrom, hstep]

theorem runUlFrom_cons_cont (cfg : Cfg) (chunks : List (List Nat))
    (u : UlState) (ev : Event) (rest : List Event) (u1 : UlState)
    (hstep : ulRecvStep cfg chunks u ev = .cont u1) :
    runUlFrom cfg chunks u (ev :: rest) =
      ⟨(ulSettle cfg u1).2 ++ (runUlFrom cfg chunks (ulSettle cfg u1).1 rest).sent,
       u.current_timeout :: (runUlFrom cfg chunks (ulSettle cfg u1).1 rest).waits,
       (runUlFrom cfg chunks (ulSettle cfg u1).1 rest).res⟩ := by
  simp only [runUlFrom, hstep]

/-- With `retries_left = k + 1`, a run of `download`'s `Recv` loop over
`k + 1` consecutive timeouts retransmits the pending packet `k` times,
arms the timeouts `backoff ...  0, …, backoff ... k`, and fails `Timeout`. -/
theorem runDlFrom_timeouts (cfg : Cfg) :
    ∀ (k : Nat) (s : DlState), s.retries_left = k + 1 →
      runDlFrom cfg s (List.replicate (k + 1) .TimedOut) =
        ⟨List.replicate k s.send_pkt,
         (List.range (k + 1)).map (backoff cfg.max_timeout s.current_timeout),
         .err .Timeout⟩ := by
  intro k
  induction k with
  | zero =>
      intro s hs
      have hstep : dlRecvStep cfg s .TimedOut = .fail .Timeout := by
        simp [dlRecvStep, hs]
      rw [List.replicate_succ, List.replicate_zero,
          runDlFrom_cons_fail cfg s .TimedOut [] .Timeout hstep]
      rfl
  | succ n ih =>
      intro s hs
      have hstep : dlRecvStep cfg s .TimedOut = .cont
          { s with retries_left := n + 1,
                   current_timeout :=
                     min (s.current_timeout + s.current_timeout / 2) cfg.max_timeout,
                   phase := .SendAgain } := by
        simp only [dlRecvStep, hs, Nat.add_sub_cancel]
        rw [if_neg (Nat.succ_ne_zero n), clamp_eq_min]
      have hsettle : dlSettle cfg
          { s with retries_left := n + 1,
                   current_timeout :=
                     min (s.current_timeout + s.current_timeout / 2) cfg.max_timeout,
                   phase := .SendAgain } =
          .atRecv
            { s with retries_left := n + 1,
                     current_timeout :=
                       min (s.current_timeout + s.current_timeout / 2) cfg.max_timeout,
                     phase := .Recv } [s.send_pkt] := rfl
      rw [List.replicate_succ,
          runDlFrom_cons_cont cfg s .TimedOut _ _ _ _ hstep hsettle]
      rw [ih { s with retries_left := n + 1,
                      current_timeout :=
                        min (s.current_timeout + s.current_timeout / 2) cfg.max_timeout,
                      phase := .Recv } rfl]
      rw [range_map_backoff cfg.max_timeout s.current_timeout (n + 1)]
      simp [List.replicate_succ]

/-- With `retries_left = k + 1`, a run of `upload`'s `Recv` loop over
`k + 1` consecutive timeouts retransmits the pending packet `k` times,
arms the timeouts `backoff ...  0, …, backoff ... k`, and fails `Timeout`. -/
theorem runUlFrom_timeouts (cfg : Cfg) (chunks : List (List Nat)) :
    ∀ (k : Nat) (u : UlState), u.retries_left = k + 1 →
      runUlFrom cfg chunks u (List.replicate (k + 1) .TimedOut) =
        ⟨List.replicate k u.send_pkt,
         (List.range (k + 1)).map (backoff cfg.max_timeout u.current_timeout),
         .err .Timeout⟩ := by
  intro k
  induction k with
  | zero =>
      intro u hu
      have hstep : ulRecvStep cfg chunks u .TimedOut = .fail .Timeout := by
        simp [ulRecvStep, hu]
      rw [List.replicate_succ, List.replicate_zero,
          runUlFrom_cons_fail cfg chunks u .TimedOut [] .Timeout hstep]
      rfl
  | succ n ih =>
      intro u hu
      have hstep : ulRecvStep cfg chunks u .TimedOut = .cont
          { u with retries_left := n + 1,
                   current_timeout :=
                     min (u.current_timeout + u.current_timeout / 2) cfg.max_timeout,
                   phase := .SendAgain } := by
        simp only [ulRecvStep, hu, Nat.add_sub_cancel]
        rw [if_neg (Nat.succ_ne_zero n), clamp_eq_min]
      rw [List.replicate_succ,
          runUlFrom_cons_cont cfg chunks u .TimedOut _ _ hstep]
      rw [show (ulSettle cfg
          { u with retries_left := n + 1,
                   current_timeout :=
                     min (u.current_timeout + u.current_timeout / 2) cfg.max_timeout,
                   phase := .SendAgain }) =
          ({ u with retries_left := n + 1,
                    current_timeout :=
                      min (u.current_timeout + u.current_timeout / 2) cfg.max_timeout,
                    phase := .Recv }, [u.send_pkt]) from rfl]
      rw [ih { u with retries_left := n + 1,
                      current_timeout :=
                        min (u.current_timeout + u.current_timeout / 2) cfg.max_timeout,
                      phase := .Recv } rfl]
      rw [range_map_backoff cfg.max_timeout u.current_timeout (n + 1)]
      simp [List.replicate_succ]

/-- C4: for both download and upload with `max_retries = R ≥ 1`, a fully
silent server produces exactly `R` receive attempts whose armed timeouts
are `backoff max_timeout base_timeout k` for `k = 0, …, R−1` (the source's
iterate of `t ↦ min (t + t/2) max_timeout` starting at `base_timeout`),
the request packet is transmitted `R` times in total (the initial send
plus `R−1` retransmissions), and the transfer fails with `Timeout`. -/
theorem c4_backoff_schedule (cfg : Cfg) (server : Addr)
    (fname payload : List Nat) (hR : 1 ≤ cfg.retries) :
    runDl cfg (dlInit cfg server fname) (List.replicate cfg.retries .TimedOut) =
      ⟨List.replicate cfg.retries (.ReadRequest fname .Octet),
       (List.range cfg.retries).map (backoff cfg.max_timeout cfg.timeout),
       .err .Timeout⟩ ∧
    runUl cfg (chunksBLK payload) (ulInit cfg server fname)
        (List.replicate cfg.retries .TimedOut) =
      ⟨List.replicate cfg.retries (.WriteRequest fname .Octet),
       (List.range cfg.retries).map (backoff cfg.max_timeout cfg.timeout),
       .err .Timeout⟩ := by
  obtain ⟨k, hk⟩ : ∃ k, cfg.retries = k + 1 := ⟨cfg.retries - 1, by omega⟩
  constructor
  · have h0 : runDl cfg (dlInit cfg server fname)
        (List.replicate cfg.retries .TimedOut) =
        ⟨[Packet.ReadRequest fname .Octet] ++
           (runDlFrom cfg
             { phase := .Recv, server := server, retries_left := cfg.retries,
               current_timeout := cfg.timeout,
               send_pkt := .ReadRequest fname .Octet,
               file_data := [], done := false, last_block_n := -1 }
             (List.replicate cfg.retries .TimedOut)).sent,
         (runDlFrom cfg
             { phase := .Recv, server := server, retries_left := cfg.retries,
               current_timeout := cfg.timeout,
               send_pkt := .ReadRequest fname .Octet,
               file_data := [], done := false, last_block_n := -1 }
             (List.replicate cfg.retries .TimedOut)).waits,
         (runDlFrom cfg
             { phase := .Recv, server := server, retries_left := cfg.retries,
               current_timeout := cfg.timeout,
               send_pkt := .ReadRequest fname .Octet,
               file_data := [], done := false, last_block_n := -1 }
             (List.replicate cfg.retries .TimedOut)).res⟩ := rfl
    rw [h0, hk]
    rw [runDlFrom_timeouts cfg k
      { phase := .Recv, server := server, retries_left := k + 1,
        current_timeout := cfg.timeout,
        send_pkt := .ReadRequest fname .Octet,
        file_data := [], done := false, last_block_n := -1 } rfl]
    simp [List.replicate_succ]
  · have h0 : runUl cfg (chunksBLK payload) (ulInit cfg server fname)
        (List.replicate cfg.retries .TimedOut) =
        ⟨[Packet.WriteRequest fname .Octet] ++
           (runUlFrom cfg (chunksBLK payload)
             { phase := .Recv, server := server, retries_left := cfg.retries,
               current_timeout := cfg.timeout,
               send_pkt := .WriteRequest fname .Octet, last_block_n := -1 }
             (List.replicate cfg.retries .TimedOut)).sent,
         (runUlFrom cfg (chunksBLK payload)
             { phase := .Recv, server := server, retries_left := cfg.retries,
               current_timeout := cfg.timeout,
               send_pkt := .WriteRequest fname .Octet, last_block_n := -1 }
             (List.replicate cfg.retries .TimedOut)).waits,
         (runUlFrom cfg (chunksBLK payload)
             { phase := .Recv, server := server, retries_left := cfg.retries,
               current_timeout := cfg.timeout,
               send_pkt := .WriteRequest fname .Octet, last_block_n := -1 }
             (List.replicate cfg.retries .TimedOut)).res⟩ := rfl
    rw [h0, hk]
    rw [runUlFrom_timeouts cfg (chunksBLK payload) k
      { phase := .Recv, server := server, retries_left := k + 1,
        current_timeout := cfg.timeout,
        send_pkt := .WriteRequest fname .Octet, last_block_n := -1 } rfl]
    simp [List.replicate_succ]

/-- Witness for `c4_backoff_schedule`: `R = 3`, `T₀ = 10`,
`max_timeout = 13` arms the waits 10, 13, 13. -/
theorem c4_backoff_schedule_witness :
    1 ≤ (3 : Nat) ∧
    runDl ⟨3, 10, 13⟩ (dlInit ⟨3, 10, 13⟩ ⟨0, 69⟩ [97])
        (List.replicate 3 .TimedOut) =
      ⟨List.replicate 3 (.ReadRequest [97] .Octet),
       (List.range 3).map (backoff 13 10), .err .Timeout⟩ ∧
    runUl ⟨3, 10, 13⟩ (chunksBLK [1]) (ulInit ⟨3, 10, 13⟩ ⟨0, 69⟩ [97])
        (List.replicate 3 .TimedOut) =
      ⟨List.replicate 3 (.WriteRequest [97] .Octet),
       (List.range 3).map (backoff 13 10), .err .Timeout⟩ :=
  ⟨by decide,
   (c4_backoff_schedule ⟨3, 10, 13⟩ ⟨0, 69⟩ [97] [1] (by decide)).1,
   (c4_backoff_schedule ⟨3, 10, 13⟩ ⟨0, 69⟩ [97] [1] (by decide)).2⟩

end Tftp
